import Mathlib

/-!
Shallow embedding of `src/arguments.cpp` (the command-line parsing subsystem
of the LongQC/Filtlong read-filtering tool): the strict double reader
`DoublesReader`, the terminal-width / help-indent computation, and the
`Arguments::Arguments` constructor's outcome state machine and configuration
assembly.  The bundled `args` library header that `ParseCLI` comes from is
not among the examined sources; the parts of it that the constructor calls
are modelled from the specification and marked as such in their doc comments.
Machine doubles are embedded as exact rationals: floating-point rounding and
range are outside the scope of this development.
-/

namespace Filtlong

/-- The value of a digit sequence read most-significant-first, as
`std::stod` / integer readers accumulate digit runs. -/
def digitsVal (cs : List Char) : Nat :=
  cs.foldl (fun a c => 10 * a + (c.toNat - 48)) 0

/-- Membership in the character class `"0123456789."` that
`DoublesReader::operator()` checks with `value.find_first_not_of`
(`Char.isDigit` is exactly `'0'..'9'`). -/
def allowedChar (c : Char) : Bool := c.isDigit || c == '.'

/-- `std::stod`, restricted to the strings that can reach it inside
`DoublesReader` (only digits and dots survive the character-class check):
it parses the longest initial portion of the form `digits ['.' digits]`,
requires at least one digit in that portion, ignores any trailing
characters (the `pos` out-parameter is not used at the call site, so a
partial parse succeeds), and fails — `std::invalid_argument` — when no
digit is consumed.  The value returned is the exact decimal denoted by the
parsed portion.

`stodIntOnly` is the no-fraction case: the integer digit run alone. -/
def stodIntOnly (cs : List Char) : Option ℚ :=
  if (cs.takeWhile Char.isDigit).length = 0 then none
  else some ((digitsVal (cs.takeWhile Char.isDigit) : ℚ))

/-- The longest-initial-portion parse of `std::stod` (see `stodIntOnly` for
the case with no fraction part): the integer digit run, then, if a dot
follows it, the fraction digit run; anything after that is ignored. -/
def stodLongest (cs : List Char) : Option ℚ :=
  match cs.dropWhile Char.isDigit with
  | c :: rest2 =>
    if c = '.' then
      if (cs.takeWhile Char.isDigit).length + (rest2.takeWhile Char.isDigit).length = 0 then
        none
      else
        some ((digitsVal (cs.takeWhile Char.isDigit) : ℚ) +
          (digitsVal (rest2.takeWhile Char.isDigit) : ℚ) / 10 ^ (rest2.takeWhile Char.isDigit).length)
    else stodIntOnly cs
  | [] => stodIntOnly cs

/-- `DoublesReader::operator()` (arguments.cpp lines 29-43): reject the value
if it contains any character outside `"0123456789."`; otherwise run
`std::stod`; on either failure, produce `args::ParseError` with the message
built by the `ostringstream` on line 39. -/
def doublesReader (name value : String) : Except String ℚ :=
  if value.data.all allowedChar then
    match stodLongest value.data with
    | some q => Except.ok q
    | none =>
      Except.error ("Error: argument '" ++ name ++ "' received invalid value type '" ++ value ++ "'")
  else
    Except.error ("Error: argument '" ++ name ++ "' received invalid value type '" ++ value ++ "'")

/-- The number a digits-and-dots string denotes read directly off the text,
as the spec words it ("the textually-equal numeric value"): the digit run
before the first dot is the integer part, the characters after it form the
fraction scaled by a power of ten.  Stated from the spec's words, to be
compared with what `doublesReader` computes. -/
def specDecimalValue (cs : List Char) : ℚ :=
  (digitsVal (cs.takeWhile (fun c => c != '.')) : ℚ) +
    (digitsVal ((cs.dropWhile (fun c => c != '.')).drop 1) : ℚ) /
      10 ^ ((cs.dropWhile (fun c => c != '.')).drop 1).length

/-- Modelled from the spec: the args library's default value reader used for
the two `long long` flags ("Integer type: parse as a signed integer; fails
with TypeCoercionError if the text is not a valid integer literal"); the
library header `args.h` is not among the examined sources. -/
def longLongReader (name value : String) : Except String Int :=
  match value.data with
  | '-' :: ds =>
    if ds.length ≠ 0 ∧ ds.all Char.isDigit then Except.ok (-(digitsVal ds : Int))
    else
      Except.error ("Error: argument '" ++ name ++ "' received invalid value type '" ++ value ++ "'")
  | ds =>
    if ds.length ≠ 0 ∧ ds.all Char.isDigit then Except.ok ((digitsVal ds : Int))
    else
      Except.error ("Error: argument '" ++ name ++ "' received invalid value type '" ++ value ++ "'")

/-- The per-flag values accumulated while scanning argv: one optional value
per value flag (presence = the flag was supplied, in which case `args::get`
on it yields the stored value), the two boolean flags, and the positional.
Field order follows the declaration order of the flag objects in
`Arguments::Arguments`. -/
structure ParsedFlags where
  positional : Option String := none
  min_score : Option ℚ := none
  target_bases : Option Int := none
  keep_percent : Option ℚ := none
  assembly : Option String := none
  illumina_reads_1 : Option String := none
  illumina_reads_2 : Option String := none
  min_length : Option Int := none
  min_mean_q : Option ℚ := none
  min_window_q : Option ℚ := none
  length_weight : Option ℚ := none
  mean_q_weight : Option ℚ := none
  window_q_weight : Option ℚ := none
  window_size : Option Int := none
  verbose : Bool := false
  version : Bool := false
deriving DecidableEq

/-- Scanner state: the flag values read so far, whether the help flag has
been encountered, and the first syntax/type error met while scanning. -/
structure ScanState where
  flags : ParsedFlags := {}
  helpSeen : Bool := false
  firstError : Option String := none
deriving DecidableEq

/-- Record a scan error, keeping the first one. -/
def setError (st : ScanState) (msg : String) : ScanState :=
  match st.firstError with
  | some _ => st
  | none => { st with firstError := some msg }

/-- Feed a raw value to the strict double reader of a `d_arg` flag. -/
def recordD (st : ScanState) (display v : String) (put : ParsedFlags → ℚ → ParsedFlags) :
    ScanState :=
  match doublesReader display v with
  | Except.ok q => { st with flags := put st.flags q }
  | Except.error m => setError st m

/-- Feed a raw value to the integer reader of an `i_arg` flag. -/
def recordI (st : ScanState) (display v : String) (put : ParsedFlags → Int → ParsedFlags) :
    ScanState :=
  match longLongReader display v with
  | Except.ok n => { st with flags := put st.flags n }
  | Except.error m => setError st m

/-- Store the raw value of an `s_arg` flag (string type: passthrough). -/
def recordS (st : ScanState) (v : String) (put : ParsedFlags → String → ParsedFlags) :
    ScanState :=
  { st with flags := put st.flags v }

/-- The thirteen value-taking long-flag tokens declared in
`Arguments::Arguments` (long separator is a space, so the value is the next
argv token). -/
def isValueFlag (t : String) : Bool :=
  t == "--min_score" || t == "--target_bases" || t == "--keep_percent" ||
  t == "--assembly" || t == "--illumina_reads_1" || t == "--illumina_reads_2" ||
  t == "--min_length" || t == "--min_mean_q" || t == "--min_window_q" ||
  t == "--length_weight" || t == "--mean_q_weight" || t == "--window_q_weight" ||
  t == "--window_size"

/-- Dispatch a value-flag token and its raw value to the reader matching the
flag's declared type, with the display name each flag object is declared
with in `Arguments::Arguments`. -/
def applyValueFlag (st : ScanState) (t v : String) : ScanState :=
  if t == "--min_score" then recordD st "min score" v (fun f q => { f with min_score := some q })
  else if t == "--target_bases" then
    recordI st "target bases" v (fun f n => { f with target_bases := some n })
  else if t == "--keep_percent" then
    recordD st "keep percent" v (fun f q => { f with keep_percent := some q })
  else if t == "--assembly" then recordS st v (fun f s => { f with assembly := some s })
  else if t == "--illumina_reads_1" then
    recordS st v (fun f s => { f with illumina_reads_1 := some s })
  else if t == "--illumina_reads_2" then
    recordS st v (fun f s => { f with illumina_reads_2 := some s })
  else if t == "--min_length" then
    recordI st "min length" v (fun f n => { f with min_length := some n })
  else if t == "--min_mean_q" then
    recordD st "min mean q" v (fun f q => { f with min_mean_q := some q })
  else if t == "--min_window_q" then
    recordD st "min window q" v (fun f q => { f with min_window_q := some q })
  else if t == "--length_weight" then
    recordD st "length weight" v (fun f q => { f with length_weight := some q })
  else if t == "--mean_q_weight" then
    recordD st "mean q weight" v (fun f q => { f with mean_q_weight := some q })
  else if t == "--window_q_weight" then
    recordD st "window q weight" v (fun f q => { f with window_q_weight := some q })
  else recordI st "window size" v (fun f n => { f with window_size := some n })

/-- Modelled from the spec: the argv scan of the args library's `ParseCLI`
(`args.h` is not among the examined sources).  Tokens are read left to
right; a help token records a help request, the two boolean flags set their
values, a value flag consumes the next token as its raw value and runs the
typed reader, an unrecognized `-`-leading token is a syntax error, and the
first bare token fills the single positional.  Per the spec's precedence
(§4.4, rules 1-2) a help request must dominate syntax and type errors, so
the scan records both and `parseCLI` orders them. -/
def scan : ScanState → List String → ScanState
  | st, [] => st
  | st, t :: rest =>
    if t == "-h" || t == "--help" then scan { st with helpSeen := true } rest
    else if t == "--verbose" then scan { st with flags := { st.flags with verbose := true } } rest
    else if t == "--version" then scan { st with flags := { st.flags with version := true } } rest
    else if isValueFlag t then
      match rest with
      | [] => setError st ("Flag '" ++ t ++ "' requires a value")
      | v :: rest2 => scan (applyValueFlag st t v) rest2
    else
      match t.data with
      | '-' :: _ => scan (setError st ("unknown flag '" ++ t ++ "'")) rest
      | _ =>
        match st.flags.positional with
        | none => scan { st with flags := { st.flags with positional := some t } } rest
        | some _ => scan (setError st ("unexpected positional argument '" ++ t ++ "'")) rest

/-- Scan an argv tail (everything after `argv[0]`) from the blank state. -/
def scanArgs (args : List String) : ScanState := scan {} args

/-- How `parser.ParseCLI(argc, argv)` terminates, as seen by the catch
blocks of `Arguments::Arguments`: an `args::Help` exception, an
`args::ParseError`/`args::ValidationError` with its message, or normal
completion leaving the parsed flag values readable. -/
inductive ParseResult where
  | helpRaised : ParseResult
  | parseError : String → ParseResult
  | success : ParsedFlags → ParseResult
deriving DecidableEq

/-- Modelled from the spec: `ParseCLI`'s outcome ordering (§4.4 rules 1-2):
a help request dominates the syntax/validation/type errors met while
scanning argv; otherwise the first such error is raised; otherwise the flag
values are available. -/
def parseCLI (args : List String) : ParseResult :=
  if (scanArgs args).helpSeen then ParseResult.helpRaised
  else
    match (scanArgs args).firstError with
    | some m => ParseResult.parseError m
    | none => ParseResult.success (scanArgs args).flags

/-- The four-valued `parsing_result` field (GOOD, HELP, BAD, VERSION). -/
inductive ParsingResult where
  | GOOD | HELP | BAD | VERSION
deriving DecidableEq

/-- The fields of the `Arguments` object that the constructor assigns
(`arguments.h` is not among the examined sources, so the field list is the
one the constructor body writes; doubles are embedded as `ℚ`, `long long`
as `Int`). -/
structure Arguments where
  parsing_result : ParsingResult
  input_reads : String
  min_score_set : Bool
  min_score : ℚ
  target_bases_set : Bool
  target_bases : Int
  keep_percent_set : Bool
  keep_percent : ℚ
  assembly_set : Bool
  assembly : String
  illumina_reads : List String
  min_length_set : Bool
  min_length : Int
  min_mean_q_set : Bool
  min_mean_q : ℚ
  min_window_q_set : Bool
  min_window_q : ℚ
  length_weight_set : Bool
  length_weight : ℚ
  mean_q_weight_set : Bool
  mean_q_weight : ℚ
  window_q_weight_set : Bool
  window_q_weight : ℚ
  window_size_set : Bool
  window_size : Int
  verbose : Bool
deriving DecidableEq

/-- One line of standard-error output: either the usage text that
`std::cerr << parser` renders, or a single text line followed by `"\n"`. -/
inductive ErrLine where
  | usage : ErrLine
  | line : String → ErrLine
deriving DecidableEq

/-- The list a supplied optional value contributes (one `push_back`), or
nothing when the flag was not supplied. -/
def optToList : Option String → List String
  | some v => [v]
  | none => []

/-- Lines 182-220: the configuration assembly run on the GOOD path.  For
each value flag, `X_set = bool(X_arg)` and `X = args::get(X_arg)`, where
`args::get` on an unsupplied flag yields the flag's default-constructed
value (`0`, `""`); the two reference-reads values are `push_back`ed onto
the member vector in flag declaration order, each if and only if its flag
was supplied. -/
def goodAssembly (init : Arguments) (flags : ParsedFlags) : Arguments :=
  { init with
    parsing_result := ParsingResult.GOOD,
    input_reads := flags.positional.getD "",
    min_score_set := flags.min_score.isSome,
    min_score := flags.min_score.getD 0,
    target_bases_set := flags.target_bases.isSome,
    target_bases := flags.target_bases.getD 0,
    keep_percent_set := flags.keep_percent.isSome,
    keep_percent := flags.keep_percent.getD 0,
    assembly_set := flags.assembly.isSome,
    assembly := flags.assembly.getD "",
    illumina_reads := init.illumina_reads ++
      optToList flags.illumina_reads_1 ++ optToList flags.illumina_reads_2,
    min_length_set := flags.min_length.isSome,
    min_length := flags.min_length.getD 0,
    min_mean_q_set := flags.min_mean_q.isSome,
    min_mean_q := flags.min_mean_q.getD 0,
    min_window_q_set := flags.min_window_q.isSome,
    min_window_q := flags.min_window_q.getD 0,
    length_weight_set := flags.length_weight.isSome,
    length_weight := flags.length_weight.getD 0,
    mean_q_weight_set := flags.mean_q_weight.isSome,
    mean_q_weight := flags.mean_q_weight.getD 0,
    window_q_weight_set := flags.window_q_weight.isSome,
    window_q_weight := flags.window_q_weight.getD 0,
    window_size_set := flags.window_size.isSome,
    window_size := flags.window_size.getD 0,
    verbose := flags.verbose }

/-- `Arguments::Arguments` lines 146-221: run `ParseCLI` over the argv tail
(`args` excludes `argv[0]`, so `argc == 1` is `args = []`), then decide the
outcome in source order: `args::Help` caught → usage to stderr, HELP;
`args::ParseError`/`args::ValidationError` caught → message to stderr, BAD;
bare invocation → usage, HELP; version flag → VERSION; positional absent or
empty → "Error: input reads are required", BAD; otherwise GOOD and the
configuration assembly runs.  `init` is the member state the constructor
starts from; the pair's second component is what the run writes to
standard error. -/
def argumentsConstructor (init : Arguments) (args : List String) :
    Arguments × List ErrLine :=
  match parseCLI args with
  | ParseResult.helpRaised => ({ init with parsing_result := ParsingResult.HELP }, [ErrLine.usage])
  | ParseResult.parseError m => ({ init with parsing_result := ParsingResult.BAD }, [ErrLine.line m])
  | ParseResult.success flags =>
    if args = [] then ({ init with parsing_result := ParsingResult.HELP }, [ErrLine.usage])
    else if flags.version then ({ init with parsing_result := ParsingResult.VERSION }, [])
    else if flags.positional.getD "" = "" then
      ({ init with
          parsing_result := ParsingResult.BAD,
          input_reads := flags.positional.getD "" },
       [ErrLine.line "Error: input reads are required"])
    else (goodAssembly init flags, [])

/-- Lines 57-59: `struct winsize w; ioctl(STDOUT_FILENO, TIOCGWINSZ, &w);
int terminal_width = w.ws_col;`.  The ioctl return value is not inspected:
on success the call writes the column count into `w`; on failure it writes
nothing and `w.ws_col` keeps whatever indeterminate content the
uninitialized stack object started with (`wsColInitial`).  Either way no
exception is raised. -/
def terminalWidth (ioctlResult : Option Int) (wsColInitial : Int) : Int :=
  match ioctlResult with
  | some cols => cols
  | none => wsColInitial

/-- Lines 61-69: the help indentation chosen from the terminal width. -/
def indentFor (w : Int) : Int :=
  if w > 120 then 4 else if w > 80 then 3 else if w > 60 then 2 else 1

/-- A concrete pre-constructor member state used to instantiate the
universally quantified theorems below (the reference-reads vector and the
strings start default-constructed, i.e. empty, as C++ guarantees for class
members). -/
def blankArgs : Arguments :=
  { parsing_result := ParsingResult.GOOD, input_reads := "",
    min_score_set := false, min_score := 0,
    target_bases_set := false, target_bases := 0,
    keep_percent_set := false, keep_percent := 0,
    assembly_set := false, assembly := "",
    illumina_reads := [],
    min_length_set := false, min_length := 0,
    min_mean_q_set := false, min_mean_q := 0,
    min_window_q_set := false, min_window_q := 0,
    length_weight_set := false, length_weight := 0,
    mean_q_weight_set := false, mean_q_weight := 0,
    window_q_weight_set := false, window_q_weight := 0,
    window_size_set := false, window_size := 0,
    verbose := false }


/-! ### Helper lemmas -/




lemma takeWhile_append_left (p : Char → Bool) (a b : List Char)
    (ha : ∀ c ∈ a, p c = true) : (a ++ b).takeWhile p = a ++ b.takeWhile p := by
  induction a with
  | nil => simp
  | cons c cs ih =>
    simp only [List.cons_append, List.takeWhile_cons, ha c (by simp), if_true]
    rw [ih (fun x hx => ha x (by simp [hx]))]

lemma dropWhile_append_left (p : Char → Bool) (a b : List Char)
    (ha : ∀ c ∈ a, p c = true) : (a ++ b).dropWhile p = b.dropWhile p := by
  induction a with
  | nil => simp
  | cons c cs ih =>
    simp only [List.cons_append, List.dropWhile_cons, ha c (by simp), if_true]
    exact ih (fun x hx => ha x (by simp [hx]))

lemma takeWhile_eq_self_of (p : Char → Bool) (l : List Char)
    (h : ∀ c ∈ l, p c = true) : l.takeWhile p = l := by
  induction l with
  | nil => rfl
  | cons c cs ih =>
    simp only [List.takeWhile_cons, h c (by simp), if_true]
    rw [ih (fun x hx => h x (by simp [hx]))]

lemma dropWhile_eq_nil_of (p : Char → Bool) (l : List Char)
    (h : ∀ c ∈ l, p c = true) : l.dropWhile p = [] := by
  induction l with
  | nil => rfl
  | cons c cs ih =>
    simp only [List.dropWhile_cons, h c (by simp), if_true]
    exact ih (fun x hx => h x (by simp [hx]))

lemma split_at_dot (cs : List Char) (h : '.' ∈ cs) :
    ∃ a b, cs = a ++ '.' :: b ∧ ∀ c ∈ a, c ≠ '.' := by
  induction cs with
  | nil => simp at h
  | cons c cs ih =>
    by_cases hc : c = '.'
    · exact ⟨[], cs, by simp [hc], by simp⟩
    · have hmem : '.' ∈ cs := by
        rcases List.mem_cons.mp h with h1 | h2
        · exact absurd h1.symm hc
        · exact h2
      obtain ⟨a, b, heq, hano⟩ := ih hmem
      refine ⟨c :: a, b, by rw [heq]; rfl, ?_⟩
      intro x hx
      rcases List.mem_cons.mp hx with rfl | hx2
      · exact hc
      · exact hano x hx2

lemma stodLongest_eq_spec (cs : List Char)
    (h1 : ∀ c ∈ cs, c.isDigit ∨ c = '.')
    (h2 : cs.count '.' ≤ 1)
    (h3 : ∃ c ∈ cs, c.isDigit) :
    stodLongest cs = some (specDecimalValue cs) := by
  by_cases hdot : '.' ∈ cs
  · obtain ⟨a, b, rfl, hano⟩ := split_at_dot cs hdot
    have hadig : ∀ c ∈ a, c.isDigit = true := by
      intro c hc
      rcases h1 c (by simp [hc]) with hd | he
      · exact hd
      · exact absurd he (hano c hc)
    have hbc : b.count '.' = 0 := by
      simp only [List.count_append, List.count_cons_self] at h2
      omega
    have hbdig : ∀ c ∈ b, c.isDigit = true := by
      intro c hc
      rcases h1 c (by simp [hc]) with hd | he
      · exact hd
      · exfalso
        rw [he] at hc
        exact absurd (List.count_pos_iff.mpr hc) (by omega)
    have hanodot : ∀ c ∈ a, (c != '.') = true := by
      intro c hc
      simp [bne_iff_ne, hano c hc]
    have hd1 : (a ++ '.' :: b).dropWhile Char.isDigit = '.' :: b := by
      rw [dropWhile_append_left _ _ _ hadig]
      simp [List.dropWhile_cons]
    have ht1 : (a ++ '.' :: b).takeWhile Char.isDigit = a := by
      rw [takeWhile_append_left _ _ _ hadig]
      simp [List.takeWhile_cons]
    have ht2 : b.takeWhile Char.isDigit = b := takeWhile_eq_self_of _ _ hbdig
    have hs1 : (a ++ '.' :: b).takeWhile (fun c => c != '.') = a := by
      rw [takeWhile_append_left _ _ _ hanodot]
      simp [List.takeWhile_cons]
    have hs2 : (a ++ '.' :: b).dropWhile (fun c => c != '.') = '.' :: b := by
      rw [dropWhile_append_left _ _ _ hanodot]
      simp [List.dropWhile_cons]
    have hne : ¬ (a.length + b.length = 0) := by
      intro h0
      have ha0 : a = [] := List.length_eq_zero.mp (by omega)
      have hb0 : b = [] := List.length_eq_zero.mp (by omega)
      subst ha0; subst hb0
      obtain ⟨c, hc, hcd⟩ := h3
      simp at hc
      subst hc
      exact absurd hcd (by decide)
    rw [stodLongest.eq_def, hd1]
    simp only [ht1, ht2]
    rw [specDecimalValue, hs1, hs2]
    simp only [List.drop_succ_cons, List.drop_zero]
    simp [hne]
  · have hdig : ∀ c ∈ cs, c.isDigit = true := by
      intro c hc
      rcases h1 c hc with hd | he
      · exact hd
      · exact absurd (he ▸ hc) hdot
    have hd1 : cs.dropWhile Char.isDigit = [] := dropWhile_eq_nil_of _ _ hdig
    have ht1 : cs.takeWhile Char.isDigit = cs := takeWhile_eq_self_of _ _ hdig
    have hnodot : ∀ c ∈ cs, (c != '.') = true := by
      intro c hc
      have := hdig c hc
      simp only [bne_iff_ne, ne_eq, decide_not]
      intro hccc
      subst hccc
      exact absurd this (by decide)
    have hs1 : cs.takeWhile (fun c => c != '.') = cs := takeWhile_eq_self_of _ _ hnodot
    have hs2 : cs.dropWhile (fun c => c != '.') = [] := dropWhile_eq_nil_of _ _ hnodot
    have hlen : ¬ ((cs.takeWhile Char.isDigit).length = 0) := by
      rw [ht1]
      obtain ⟨c, hc, _⟩ := h3
      have : cs ≠ [] := by rintro rfl; simp at hc
      simpa [List.length_eq_zero] using this
    rw [stodLongest.eq_def, hd1]
    rw [stodIntOnly, if_neg hlen, ht1]
    rw [specDecimalValue, hs1, hs2]
    simp [digitsVal]


/-! ### The claims -/




/-- Claim C1: whenever the argv scan sees the help flag (`-h`/`--help`), the
constructor's outcome is HELP and the usage text is emitted to standard
error — even when the scan also met an unknown flag or a malformed or
type-invalid value, because the help request is evaluated before syntax and
validation errors in the stated precedence order. -/
theorem help_flag_dominates_errors (init : Arguments) (args : List String)
    (h : (scanArgs args).helpSeen = true) :
    (argumentsConstructor init args).1.parsing_result = ParsingResult.HELP ∧
    (argumentsConstructor init args).2 = [ErrLine.usage] := by
  have hp : parseCLI args = ParseResult.helpRaised := by
    simp [parseCLI, h]
  rw [argumentsConstructor.eq_def, hp]
  exact ⟨rfl, rfl⟩

/-- Witness for C1: help together with an unknown flag and a malformed
double value still yields HELP plus usage text. -/
theorem help_flag_dominates_errors_w :
    (scanArgs ["--bogus", "--min_score", "1x2", "--help"]).helpSeen = true ∧
    (argumentsConstructor blankArgs ["--bogus", "--min_score", "1x2", "--help"]).1.parsing_result =
      ParsingResult.HELP ∧
    (argumentsConstructor blankArgs ["--bogus", "--min_score", "1x2", "--help"]).2 =
      [ErrLine.usage] :=
  ⟨by decide,
   (help_flag_dominates_errors blankArgs _ (by decide)).1,
   (help_flag_dominates_errors blankArgs _ (by decide)).2⟩

/-- Claim C2: a raw value containing any character outside `{0-9, '.'}` makes
the strict double reader fail, with the error message carrying the option's
display name and the offending raw value in the form
`argument '<name>' received invalid value type '<value>'` (the `ostringstream`
prefixes the line with `Error: `). -/
theorem double_reader_rejects_foreign_chars (name value : String)
    (h : ∃ c ∈ value.data, ¬(c.isDigit ∨ c = '.')) :
    doublesReader name value =
      Except.error
        ("Error: argument '" ++ name ++ "' received invalid value type '" ++ value ++ "'") := by
  obtain ⟨c, hc, hbad⟩ := h
  have hall : ¬ (value.data.all allowedChar = true) := by
    intro hall
    rw [List.all_eq_true] at hall
    have h2 := hall c hc
    simp [allowedChar] at h2
    exact hbad (by tauto)
  unfold doublesReader
  rw [if_neg hall]

/-- Witness for C2 at the spec's own example. -/
theorem double_reader_rejects_foreign_chars_w :
    doublesReader "min score" "12.5x" =
      Except.error
        ("Error: argument '" ++ "min score" ++ "' received invalid value type '" ++ "12.5x" ++ "'") :=
  double_reader_rejects_foreign_chars "min score" "12.5x" ⟨'x', by decide, by decide⟩

/-- Counterexample to claim C3 as stated: `"."` is composed solely of
characters from the allowed class with at most one `'.'`, yet the strict
double reader fails on it (`std::stod` consumes no digit and throws), rather
than succeeding. -/
theorem double_reader_dot_cex :
    (".".data.all allowedChar = true) ∧ ".".data.count '.' ≤ 1 ∧
    doublesReader "min score" "." =
      Except.error "Error: argument 'min score' received invalid value type '.'" :=
  ⟨by decide, by decide, by rfl⟩

/-- Claim C3 (amended): for every string composed solely of decimal digits
with at most one `'.'` **that contains at least one digit**, the strict
double reader succeeds and yields the numeric value the text denotes. -/
theorem double_reader_digits_dot_ok (name s : String)
    (h1 : ∀ c ∈ s.data, c.isDigit ∨ c = '.')
    (h2 : s.data.count '.' ≤ 1)
    (h3 : ∃ c ∈ s.data, c.isDigit) :
    doublesReader name s = Except.ok (specDecimalValue s.data) := by
  have hall : s.data.all allowedChar = true := by
    rw [List.all_eq_true]
    intro c hc
    rcases h1 c hc with hd | he
    · simp [allowedChar, hd]
    · simp [allowedChar, he]
  unfold doublesReader
  rw [if_pos hall, stodLongest_eq_spec s.data h1 h2 h3]

/-- Witness for the amended C3: `"12.5"` parses to the denoted value `25/2`. -/
theorem double_reader_digits_dot_ok_w :
    doublesReader "min score" "12.5" = Except.ok (specDecimalValue "12.5".data) ∧
    specDecimalValue "12.5".data = 25 / 2 :=
  ⟨double_reader_digits_dot_ok "min score" "12.5" (by decide) (by decide) ⟨'1', by decide, by decide⟩,
   by
    have h : specDecimalValue "12.5".data = ((12 : ℕ) : ℚ) + ((5 : ℕ) : ℚ) / 10 ^ (1 : ℕ) := rfl
    rw [h]; norm_num⟩

/-- Claim C4: when the parse completes without error and the invocation is
not bare, a supplied version flag forces outcome VERSION before the
missing-positional check runs. -/
theorem version_precedes_missing_input (init : Arguments) (args : List String)
    (flags : ParsedFlags)
    (hp : parseCLI args = ParseResult.success flags)
    (hne : args ≠ [])
    (hv : flags.version = true) :
    (argumentsConstructor init args).1.parsing_result = ParsingResult.VERSION := by
  rw [argumentsConstructor.eq_def, hp]
  simp [hne, hv]

/-- Witness for C4: `--version` alone (the positional is missing) still
gives VERSION. -/
theorem version_precedes_missing_input_w :
    (argumentsConstructor blankArgs ["--version"]).1.parsing_result = ParsingResult.VERSION :=
  version_precedes_missing_input blankArgs ["--version"] { version := true }
    (by decide) (by decide) rfl

/-- Claim C5: on an error-free, non-bare parse with no help or version flag,
an absent or empty positional makes the outcome BAD with exactly the line
`Error: input reads are required` on standard error. -/
theorem missing_input_reads_bad (init : Arguments) (args : List String)
    (flags : ParsedFlags)
    (hp : parseCLI args = ParseResult.success flags)
    (hne : args ≠ [])
    (hv : flags.version = false)
    (hpos : flags.positional.getD "" = "") :
    (argumentsConstructor init args).1.parsing_result = ParsingResult.BAD ∧
    (argumentsConstructor init args).2 = [ErrLine.line "Error: input reads are required"] := by
  rw [argumentsConstructor.eq_def, hp]
  simp [hne, hv, hpos]

/-- Witness for C5: `--verbose` with no positional. -/
theorem missing_input_reads_bad_w :
    (argumentsConstructor blankArgs ["--verbose"]).1.parsing_result = ParsingResult.BAD ∧
    (argumentsConstructor blankArgs ["--verbose"]).2 =
      [ErrLine.line "Error: input reads are required"] :=
  missing_input_reads_bad blankArgs ["--verbose"] { verbose := true }
    (by decide) (by decide) rfl rfl

/-- Claim C6: on every GOOD parse the reference-reads member is exactly the
first reference value (if and only if its flag was supplied) followed by the
second (if and only if its flag was supplied) — length at most 2, order
fixed by flag declaration, and no empty placeholder when only the second
flag is supplied. -/
theorem reference_reads_ordered (init : Arguments) (args : List String)
    (flags : ParsedFlags)
    (hinit : init.illumina_reads = [])
    (hp : parseCLI args = ParseResult.success flags)
    (hgood : (argumentsConstructor init args).1.parsing_result = ParsingResult.GOOD) :
    (argumentsConstructor init args).1.illumina_reads =
      optToList flags.illumina_reads_1 ++ optToList flags.illumina_reads_2 ∧
    (argumentsConstructor init args).1.illumina_reads.length ≤ 2 ∧
    (flags.illumina_reads_1 = none →
      (argumentsConstructor init args).1.illumina_reads = optToList flags.illumina_reads_2) := by
  have hred : argumentsConstructor init args = (goodAssembly init flags, []) := by
    rw [argumentsConstructor.eq_def, hp] at hgood ⊢
    by_cases hz : args = []
    · simp [hz] at hgood
    by_cases hv : flags.version
    · simp [hz, hv] at hgood
    by_cases hpos : flags.positional.getD "" = ""
    · simp [hz, hv, hpos] at hgood
    simp [hz, hv, hpos]
  rw [hred]
  cases hc1 : flags.illumina_reads_1 <;> cases hc2 : flags.illumina_reads_2 <;>
    simp [goodAssembly, hinit, optToList, hc1, hc2]

/-- Witness for C6 at the spec's example: only the second reference flag is
supplied, and the sequence is `["r2.fastq"]` with no placeholder. -/
theorem reference_reads_ordered_w :
    (argumentsConstructor blankArgs ["reads.fastq", "--illumina_reads_2", "r2.fastq"]).1.illumina_reads =
      optToList none ++ optToList (some "r2.fastq") :=
  (reference_reads_ordered blankArgs ["reads.fastq", "--illumina_reads_2", "r2.fastq"]
    { positional := some "reads.fastq", illumina_reads_2 := some "r2.fastq" }
    rfl (by decide) (by decide)).1

/-- Claim C7: the help-indent mapping returns 4 above 120 columns, 3 on
(80, 120], 2 on (60, 80] and 1 at or below 60, with the exact boundary
values listed. -/
theorem indent_mapping (w : Int) :
    (120 < w → indentFor w = 4) ∧
    (80 < w ∧ w ≤ 120 → indentFor w = 3) ∧
    (60 < w ∧ w ≤ 80 → indentFor w = 2) ∧
    (w ≤ 60 → indentFor w = 1) ∧
    indentFor 121 = 4 ∧ indentFor 120 = 3 ∧ indentFor 81 = 3 ∧
    indentFor 80 = 2 ∧ indentFor 61 = 2 ∧ indentFor 60 = 1 ∧ indentFor 1 = 1 := by
  refine ⟨fun h => ?_, fun h => ?_, fun h => ?_, fun h => ?_, ?_, ?_, ?_, ?_, ?_, ?_, ?_⟩ <;>
    (unfold indentFor; split_ifs <;> omega)

/-- Witness for C7 across the four bands. -/
theorem indent_mapping_w :
    indentFor 121 = 4 ∧ indentFor 95 = 3 ∧ indentFor 70 = 2 ∧ indentFor 60 = 1 :=
  ⟨(indent_mapping 121).1 (by decide),
   (indent_mapping 95).2.1 (by decide),
   (indent_mapping 70).2.2.1 (by decide),
   (indent_mapping 60).2.2.2.1 (by decide)⟩

/-- Claim C8 (code bug): the width query never raises, but it does **not**
fail over to a default value — the ioctl return value is never inspected, so
on failure `terminal_width` is whatever indeterminate content `w.ws_col`
already held (here 999 versus 1000 for two possible stack contents), not a
fixed default. -/
theorem terminal_width_unchecked_ioctl :
    terminalWidth (some 80) 999 = 80 ∧
    terminalWidth none 999 = 999 ∧
    terminalWidth none 1000 = 1000 :=
  ⟨rfl, rfl, rfl⟩

/-- Claim C9: `"1.2.3"` lies inside the allowed character class but is not a
plain decimal literal (two dots), yet the strict double reader accepts it
with the value of its longest parsable portion — the same value `"1.2"`
parses to, the number 6/5 — while the empty string and `"."`, having no
parsable portion, fail. -/
theorem double_reader_longest_portion :
    ("1.2.3".data.all allowedChar = true) ∧
    "1.2.3".data.count '.' = 2 ∧
    doublesReader "min score" "1.2.3" = Except.ok (specDecimalValue "1.2".data) ∧
    doublesReader "min score" "1.2" = Except.ok (specDecimalValue "1.2".data) ∧
    specDecimalValue "1.2".data = 6 / 5 ∧
    doublesReader "min score" "" =
      Except.error "Error: argument 'min score' received invalid value type ''" ∧
    doublesReader "min score" "." =
      Except.error "Error: argument 'min score' received invalid value type '.'" :=
  ⟨by decide, by decide, by rfl, by rfl,
   by
    have h : specDecimalValue "1.2".data = ((1 : ℕ) : ℚ) + ((2 : ℕ) : ℚ) / 10 ^ (1 : ℕ) := rfl
    rw [h]; norm_num,
   by rfl, by rfl⟩

/-- Claim C10: on every non-GOOD outcome the constructor returns before the
configuration assembly, so every optional value field, every set-flag, the
verbose flag and the reference-reads vector keep their initial values; the
`input_reads` member can differ from its initial value only on the
missing-positional BAD path, where it has been assigned the empty value. -/
theorem non_good_outcome_frame (init : Arguments) (args : List String)
    (h : (argumentsConstructor init args).1.parsing_result ≠ ParsingResult.GOOD) :
    ((argumentsConstructor init args).1.illumina_reads = init.illumina_reads ∧
     (argumentsConstructor init args).1.verbose = init.verbose ∧
     (argumentsConstructor init args).1.min_score_set = init.min_score_set ∧
     (argumentsConstructor init args).1.min_score = init.min_score ∧
     (argumentsConstructor init args).1.target_bases_set = init.target_bases_set ∧
     (argumentsConstructor init args).1.target_bases = init.target_bases ∧
     (argumentsConstructor init args).1.keep_percent_set = init.keep_percent_set ∧
     (argumentsConstructor init args).1.keep_percent = init.keep_percent ∧
     (argumentsConstructor init args).1.assembly_set = init.assembly_set ∧
     (argumentsConstructor init args).1.assembly = init.assembly ∧
     (argumentsConstructor init args).1.min_length_set = init.min_length_set ∧
     (argumentsConstructor init args).1.min_length = init.min_length ∧
     (argumentsConstructor init args).1.min_mean_q_set = init.min_mean_q_set ∧
     (argumentsConstructor init args).1.min_mean_q = init.min_mean_q ∧
     (argumentsConstructor init args).1.min_window_q_set = init.min_window_q_set ∧
     (argumentsConstructor init args).1.min_window_q = init.min_window_q ∧
     (argumentsConstructor init args).1.length_weight_set = init.length_weight_set ∧
     (argumentsConstructor init args).1.length_weight = init.length_weight ∧
     (argumentsConstructor init args).1.mean_q_weight_set = init.mean_q_weight_set ∧
     (argumentsConstructor init args).1.mean_q_weight = init.mean_q_weight ∧
     (argumentsConstructor init args).1.window_q_weight_set = init.window_q_weight_set ∧
     (argumentsConstructor init args).1.window_q_weight = init.window_q_weight ∧
     (argumentsConstructor init args).1.window_size_set = init.window_size_set ∧
     (argumentsConstructor init args).1.window_size = init.window_size) ∧
    ((argumentsConstructor init args).1.input_reads = init.input_reads ∨
     ((argumentsConstructor init args).1.parsing_result = ParsingResult.BAD ∧
      (argumentsConstructor init args).1.input_reads = "")) := by
  rcases hp : parseCLI args with _ | m | flags <;>
    rw [argumentsConstructor.eq_def, hp] at h ⊢
  · simp
  · simp
  · by_cases hz : args = []
    · simp [hz]
    by_cases hv : flags.version
    · simp [hz, hv]
    by_cases hpos : flags.positional.getD "" = ""
    · simp [hz, hv, hpos]
    · simp [hz, hv, hpos, goodAssembly] at h

/-- Witness for C10 on the HELP outcome of `--help`. -/
theorem non_good_outcome_frame_w :
    (argumentsConstructor blankArgs ["--help"]).1.illumina_reads = blankArgs.illumina_reads :=
  (non_good_outcome_frame blankArgs ["--help"] (by decide)).1.1

end Filtlong
